/-
Verification of the rudder stock geometry subsystem.

This file gives a shallow embedding, over the real numbers, of the stock
geometry construction code (plate_math.py, geom.py, plate.py,
wedge_angled.py, heel_cutter.py) and proves or refutes the frozen claims
about it.  Solids are modelled as subsets of three dimensional real space;
kernel booleans on concrete boxes are set operations; the opaque CAD kernel
used by the heel-cutter workflow is modelled by an abstract solid type with
fallible operations.
-/
import Mathlib

set_option maxHeartbeats 1000000

open Real

/-! ## Points and elementary solids -/

/-- A point of three dimensional space. -/
@[ext] structure Pt where
  x : ℝ
  y : ℝ
  z : ℝ

/-- A solid is modelled as a set of points. -/
abbrev Solid3 : Type := Set Pt

/-- `Part.makeBox lx ly lz` with placement base `b`: the axis aligned box
spanning `[b.x, b.x+lx] × [b.y, b.y+ly] × [b.z, b.z+lz]`. -/
def makeBox (lx ly lz : ℝ) (b : Pt) : Solid3 :=
  {p : Pt | (b.x ≤ p.x ∧ p.x ≤ b.x + lx) ∧ (b.y ≤ p.y ∧ p.y ≤ b.y + ly) ∧
    (b.z ≤ p.z ∧ p.z ≤ b.z + lz)}

/-- Degrees to radians, as in `math.radians`. -/
noncomputable def radOf (x : ℝ) : ℝ := x * Real.pi / 180

/-- Radians to degrees, as in `math.degrees`. -/
noncomputable def degOf (x : ℝ) : ℝ := x * 180 / Real.pi

/-- `math.atan2 y x` over the reals. -/
noncomputable def atan2 (y x : ℝ) : ℝ :=
  if 0 < x then Real.arctan (y / x)
  else if x < 0 then
    (if 0 ≤ y then Real.arctan (y / x) + Real.pi else Real.arctan (y / x) - Real.pi)
  else (if 0 < y then Real.pi / 2 else if y < 0 then -(Real.pi / 2) else 0)

/-- `math.hypot x y` over the reals. -/
noncomputable def hypot (x y : ℝ) : ℝ := Real.sqrt (x * x + y * y)

/-- Rotation of a point about the axis parallel to Z through `c`, by
`a` degrees (right hand rule), as performed by `shape.rotate(c, (0,0,1), a)`. -/
noncomputable def rotZpt (c : Pt) (a : ℝ) (p : Pt) : Pt :=
  ⟨c.x + (p.x - c.x) * Real.cos (radOf a) - (p.y - c.y) * Real.sin (radOf a),
   c.y + (p.x - c.x) * Real.sin (radOf a) + (p.y - c.y) * Real.cos (radOf a),
   p.z⟩

/-- Rotation of a point about the axis parallel to Y through `c`, by
`a` degrees (right hand rule), as performed by `shape.rotate(c, (0,1,0), a)`. -/
noncomputable def rotYpt (c : Pt) (a : ℝ) (p : Pt) : Pt :=
  ⟨c.x + (p.x - c.x) * Real.cos (radOf a) + (p.z - c.z) * Real.sin (radOf a),
   p.y,
   c.z - (p.x - c.x) * Real.sin (radOf a) + (p.z - c.z) * Real.cos (radOf a)⟩

/-- Translation of a point by a vector, as performed by `shape.translate(v)`. -/
def translPt (v : Pt) (p : Pt) : Pt := ⟨p.x + v.x, p.y + v.y, p.z + v.z⟩

/-- Reflection across the plane `y = 0`. -/
def reflYpt (p : Pt) : Pt := ⟨p.x, -p.y, p.z⟩

/-- Rotation of a solid about the Z-parallel axis through `c`. -/
noncomputable def rotZimg (c : Pt) (a : ℝ) (S : Solid3) : Solid3 := (rotZpt c a) '' S

/-- Rotation of a solid about the Y-parallel axis through `c`. -/
noncomputable def rotYimg (c : Pt) (a : ℝ) (S : Solid3) : Solid3 := (rotYpt c a) '' S

/-- Translation of a solid. -/
def translImg (v : Pt) (S : Solid3) : Solid3 := (translPt v) '' S

/-! ## Plate-Angle Solver (stock/plate_math.py, compute_plate_angles) -/

/-- Python's `s.strip().lower()`: drop whitespace from both ends, lowercase
the rest. -/
def strNormalize (s : String) : String :=
  ⟨(((s.data.dropWhile (·.isWhitespace)).reverse.dropWhile
      (·.isWhitespace)).reverse).map Char.toLower⟩

/-- `compute_plate_angles(radius, length, thickness, tangent)` from
`stock/plate_math.py`: validates the inputs, selects the effective radius
from the tangent edge, and returns `(half_rad, half_deg, v_rad, v_deg)`. -/
noncomputable def computePlateAngles (radius length thickness : ℝ) (tangent : String) :
    Except String (ℝ × ℝ × ℝ × ℝ) :=
  if length ≤ 0 ∨ radius ≤ 0 ∨ thickness < 0 then
    .error "radius>0, length>0, thickness>=0 required"
  else
    let key := strNormalize tangent
    if key = "inside" then
      let half := atan2 radius length
      .ok (half, degOf half, 2 * half, degOf (2 * half))
    else if key = "center" then
      let half := atan2 (radius + thickness * 0.5) length
      .ok (half, degOf half, 2 * half, degOf (2 * half))
    else if key = "outside" then
      let half := atan2 (radius + thickness) length
      .ok (half, degOf half, 2 * half, degOf (2 * half))
    else .error "tangent must be inside, center, or outside"

/-! ## Segment model and Radius Interpolator (stock/geom.py, radius_at) -/

/-- The kind of a post segment. -/
inductive SegKind where
  | cyl
  | taper
deriving DecidableEq

/-- One post segment, as stored in the shared segment list. -/
structure Seg where
  kind : SegKind
  z_bot : ℝ
  z_top : ℝ
  r_bot : ℝ
  r_top : ℝ

/-- The radius contributed by one covering segment in `radius_at`:
a cylinder gives `r_top`; a taper interpolates linearly, degrading to
`r_top` when the span is below `1e-12`. -/
noncomputable def segRadius (s : Seg) (z : ℝ) : ℝ :=
  match s.kind with
  | .cyl => s.r_top
  | .taper =>
      if |s.z_top - s.z_bot| < 1e-12 then s.r_top
      else s.r_bot + ((z - s.z_bot) / (s.z_top - s.z_bot)) * (s.r_top - s.r_bot)

/-- Whether a segment's tolerant range `[z_bot - 1e-9, z_top + 1e-9]` contains `z`. -/
noncomputable def segCovers (z : ℝ) (s : Seg) : Bool :=
  decide (s.z_bot - 1e-9 ≤ z ∧ z ≤ s.z_top + 1e-9)

/-- `radius_at(z_world, segments)` from `stock/geom.py`: scans the segments in
order and returns the radius from the first one whose tolerant range covers
`z`; errors when no segment covers `z`. -/
noncomputable def radius_at (z : ℝ) : List Seg → Except String ℝ
  | [] => .error "No post segment covers Z"
  | s :: rest =>
      if s.z_bot - 1e-9 ≤ z ∧ z ≤ s.z_top + 1e-9 then .ok (segRadius s z)
      else radius_at z rest

/-- The Radius Interpolator described by the spec: resolve the first segment
whose tolerant range contains `z` and take its (interpolated) radius; error
when no segment covers `z`.  Used to compare against `radius_at`. -/
noncomputable def radiusAtSpec (z : ℝ) (segs : List Seg) : Except String ℝ :=
  match segs.find? (segCovers z) with
  | some s => .ok (segRadius s z)
  | none => .error "No post segment covers Z"

/-! ## Heel-Cutter workflow (stock/heel_cutter.py)

The CAD kernel solids handled by the workflow are opaque; we model them by
an abstract type together with the kernel operations the workflow invokes.
Boolean cuts may fail, which models the exceptions the Python code guards
against. -/

/-- The kernel operations used by the heel-cutter workflow.  `cut` is
fallible: an `.error` models a kernel exception during the boolean. -/
structure HKernel (S : Type) where
  mkBox : ℝ → ℝ → ℝ → Pt → S
  compound : List S → S
  cut : S → S → Except Unit S

/-- `add_post_half_box` from `stock/heel_cutter.py`: build a rectangular
cutter whose inner face lies on `x = plane_x`.  The `r_bottom`/`r_top`
arguments are kept for signature compatibility and ignored, exactly as in
the source. -/
noncomputable def addPostHalfBox {S : Type} (mkBox : ℝ → ℝ → ℝ → Pt → S)
    (z_bottom z_top : ℝ) (r_bottom r_top : ℝ) (side : String)
    (oversize : ℝ) (plane_x : ℝ) (y_clear x_depth : Option ℝ) :
    Except String S :=
  let _ := r_bottom
  let _ := r_top
  let z0 := min z_bottom z_top
  let z1 := max z_bottom z_top
  let pad := oversize
  let z_len := (z1 - z0) + 2 * pad
  if z_len ≤ 0 then .error "Computed z_len must be positive."
  else
    let y_len := y_clear.getD (40 + 2 * pad)
    let x_len := x_depth.getD (80 + 2 * pad)
    if y_len ≤ 0 ∨ x_len ≤ 0 then .error "Computed cutter x_len/y_len must be positive."
    else if side = "negX" then
      .ok (mkBox x_len y_len z_len ⟨plane_x - x_len, -(0.5 * y_len), z0 - pad⟩)
    else if side = "posX" then
      .ok (mkBox x_len y_len z_len ⟨plane_x, -(0.5 * y_len), z0 - pad⟩)
    else .error "side must be negX or posX"

/-- `add_post_half_box_from_segments`: derive the Z limits from the post
segments (error when there are none) and build the plane-anchored box. -/
noncomputable def addPostHalfBoxFromSegments {S : Type} (mkBox : ℝ → ℝ → ℝ → Pt → S)
    (segs : List Seg) (side : String) (oversize plane_x : ℝ) :
    Except String S :=
  match segs with
  | [] => .error "No post segments available to size cutter box."
  | s :: rest =>
      let z_bottom := rest.foldl (fun m sg => min m sg.z_bot) s.z_bot
      let z_top := rest.foldl (fun m sg => max m sg.z_top) s.z_top
      addPostHalfBox mkBox z_bottom z_top 0 0 side oversize plane_x none none

/-- Fetch `[shapes[i] for i in idx]`; `none` models the `IndexError` that the
workflow's outer try/except would catch. -/
def heelGetAll {S : Type} (shapes : List S) (idx : List ℕ) : Option (List S) :=
  idx.mapM (fun i => shapes[i]?)

/-- One guarded cut: on success the cut solid, on a kernel failure the
original solid is kept (the per-solid try/except of the workflow). -/
def cutOrKeep {S : Type} (k : HKernel S) (smart orig : S) : S :=
  match k.cut orig smart with
  | .ok c => c
  | .error _ => orig

/-- One index-directed update pass over the `modified_shapes` array:
for each listed index, store `g shapes[i]` at position `i`. -/
def idxPass {S : Type} (g : S → Option S) (shapes : List S) (idx : List ℕ)
    (init : List (Option S)) : List (Option S) :=
  idx.foldl (fun acc i =>
    match shapes[i]? with
    | some orig => acc.set i (g orig)
    | none => acc) init

/-- `apply_heel_cutter_workflow` from `stock/heel_cutter.py`.  The result
list may contain `none` at indices listed in neither index list, mirroring
the `[None] * len(compound_shapes)` initialisation; every failure path
returns the input solids unmodified. -/
noncomputable def applyHeelCutterWorkflow {S : Type} (k : HKernel S) (segs : List Seg)
    (shapes : List S) (postIdx nonPostIdx : List ℕ) : List (Option S) :=
  match addPostHalfBoxFromSegments k.mkBox segs "negX" 2 0 with
  | .error _ => shapes.map some
  | .ok cutter =>
      match heelGetAll shapes postIdx, heelGetAll shapes nonPostIdx with
      | some postShapes, some nonPostShapes =>
          if postShapes.isEmpty || nonPostShapes.isEmpty then shapes.map some
          else
            match k.cut cutter (k.compound postShapes) with
            | .error _ => shapes.map some
            | .ok smart =>
                idxPass (fun orig => some orig) shapes postIdx
                  (idxPass (fun orig => some (cutOrKeep k smart orig)) shapes nonPostIdx
                    (List.replicate shapes.length none))
      | _, _ => shapes.map some

/-- A tiny concrete kernel over natural-number "solids", used only to witness
the heel-cutter theorems on concrete inputs. -/
def natKernel : HKernel ℕ :=
  ⟨fun _ _ _ _ => 0, fun l => l.foldl (fun a b => a + b) 0, fun a b => .ok (a + b)⟩

/-! ## Tine rows and the plate builder (stock/plate.py, build_plate) -/

/-- The numeric fields of a tine CSV row (start, width, length,
plate_thickness, angle). -/
structure TineRow where
  start : ℝ
  width : ℝ
  length : ℝ
  thickness : ℝ
  angle : ℝ

/-- The fixed penetration into the post for 90-degree plates (mm). -/
def PENETRATION_90 : ℝ := 5

/-- The numeric content of a plate summary: the 90-degree form carries the
penetration, the angled form carries the angle. -/
inductive PSummary where
  | p90 (start w len t r pen : ℝ)
  | angled (start w len t angle r : ℝ)

/-- The radius obtained from the radius callback with the builders'
try/except fallback to `0` on failure. -/
def tineRadius (rfn : ℝ → Except String ℝ) (start : ℝ) : ℝ :=
  match rfn (-start) with
  | .ok v => v
  | .error _ => 0

/-- `build_plate` from `stock/plate.py`: for a 90-degree row, call the
plate-angle solver (whose exception propagates), then build one box of the
CSV length shifted into the post by the fixed penetration; otherwise
elongate by the foreshortening compensation, rotate about the Y axis through
the post contact line, and intersect with the constant-X trim box. -/
noncomputable def buildPlate (row : TineRow) (rfn : ℝ → Except String ℝ) :
    Except String (List Solid3 × PSummary) :=
  let start := row.start
  let width := row.width
  let length_out := row.length
  let t := row.thickness
  let angle_deg := row.angle
  let r := tineRadius rfn start
  if |angle_deg - 90| < 1e-9 then
    match computePlateAngles r length_out t "inside" with
    | .error e => .error e
    | .ok _ =>
        let pen := if 0 < PENETRATION_90 then PENETRATION_90 else 0
        let eff_len := length_out
        let p := makeBox eff_len t width ⟨r - pen, -t / 2, -(start + width)⟩
        .ok ([p], .p90 start width length_out t r pen)
  else
    let tilt := 90 - angle_deg
    let rot_deg := -tilt
    let rot_rad := radOf |tilt|
    let extra := if 1e-9 < |tilt| then width * Real.tan rot_rad else 0
    let eff_len := length_out + extra
    let p0 := makeBox eff_len t width ⟨r, -t / 2, -(start + width)⟩
    let p1 := rotYimg ⟨r, 0, -start⟩ rot_deg p0
    let x_cut := r + length_out * Real.cos (radOf |tilt|)
    let trim := makeBox (x_cut + 10000) 20000 20000 ⟨-10000, -10000, -10000⟩
    .ok ([p1 ∩ trim], .angled start width length_out t angle_deg r)

/-- The number of solids delivered by a builder result. -/
def numSolids {A : Type} : Except String (List Solid3 × A) → ℕ
  | .ok (l, _) => l.length
  | .error _ => 0

/-! ## Bounding boxes

The kernel's `BoundBox` of a shape is its exact axis-aligned bounding box:
per coordinate the infimum and supremum of that coordinate over the shape. -/

/-- An axis-aligned bounding box. -/
structure BB where
  xmin : ℝ
  xmax : ℝ
  ymin : ℝ
  ymax : ℝ
  zmin : ℝ
  zmax : ℝ

/-- The exact bounding box of a solid. -/
noncomputable def bbOf (S : Solid3) : BB :=
  ⟨sInf (Pt.x '' S), sSup (Pt.x '' S), sInf (Pt.y '' S), sSup (Pt.y '' S),
   sInf (Pt.z '' S), sSup (Pt.z '' S)⟩

/-- `BoundBox.add`: the hull of two bounding boxes. -/
noncomputable def BB.hull (a b : BB) : BB :=
  ⟨min a.xmin b.xmin, max a.xmax b.xmax, min a.ymin b.ymin, max a.ymax b.ymax,
   min a.zmin b.zmin, max a.zmax b.zmax⟩

/-- Coordinatewise boundedness of a solid. -/
def Bounded3 (S : Solid3) : Prop :=
  ∃ M : ℝ, ∀ p ∈ S, |p.x| ≤ M ∧ |p.y| ≤ M ∧ |p.z| ≤ M

/-! ## Wedge builder (stock/wedge_angled.py, build_wedge) -/

/-- The numeric content of a wedge summary, mirroring the values printed by
`build_wedge`: the 90-degree form carries `(start, w, L_in, t, r_at, alpha,
tip_x)`, the angled form `(start, w, L_csv, L_total, t, r_at, alpha, rotY,
x_cut, E_lead, E_trail, theta)`. -/
inductive WSummary where
  | w90 (start w L_in t r alpha_deg tip_x : ℝ)
  | angled (start w L_csv L_total t r alpha_deg rotY x_cut E_lead E_trail theta : ℝ)

/-- The symmetric V of two strips shared by both branches of `build_wedge`:
each strip is a box of length `L_in`, thickness `t` and height `width`, with
its tip edge at `x = d`, the top strip above `y = 0` rotated by `-alpha` and
the bottom strip below `y = 0` rotated by `+alpha` about the Z axis through
the tip point `(d, 0, -start)`. -/
noncomputable def vStrips (start width L_in t alpha_deg d : ℝ) : Solid3 × Solid3 :=
  (rotZimg ⟨d, 0, -start⟩ (-alpha_deg)
     (makeBox L_in t width ⟨d - L_in, 0, -(start + width)⟩),
   rotZimg ⟨d, 0, -start⟩ alpha_deg
     (makeBox L_in t width ⟨d - L_in, -t, -(start + width)⟩))

/-- `build_wedge` from `stock/wedge_angled.py` (the latest angled-wedge
builder).  The radius lookup failure defaults to `r = 0`; the 90-degree
branch builds the plain V; the angled branch extends the V by the leading
and trailing extensions, translates the pivot onto the post surface, rotates
about the Y axis through the pivot, and trims with the generously sized
bounding-box-derived tip-cut prism at `x = r + L_csv`. -/
noncomputable def wedgeAngled_build (row : TineRow) (rfn : ℝ → Except String ℝ) :
    Except String (List Solid3 × WSummary) :=
  let start := row.start
  let width := row.width
  let length_out := row.length
  let t := row.thickness
  let angle_deg := row.angle
  let r := tineRadius rfn start
  if |angle_deg - 90| < 1e-9 then
    let L_in := length_out
    let R_eff := r - t
    if L_in ≤ 0 ∨ R_eff ≤ 0 then .error "invalid inside geometry"
    else
      let alpha_deg := degOf (atan2 R_eff L_in)
      let d := hypot R_eff L_in
      let sv := vStrips start width L_in t alpha_deg d
      .ok ([sv.1, sv.2], .w90 start width L_in t r alpha_deg d)
  else
    let theta_deg := |90 - angle_deg|
    let theta_rad := radOf theta_deg
    let E_lead := 2 * r
    let E_trail := length_out * (1 / Real.cos theta_rad - 1) + width * Real.tan theta_rad
    let L_total := length_out + E_lead + E_trail
    let L_in := L_total
    let R_eff := r - t
    if L_in ≤ 0 ∨ R_eff ≤ 0 then .error "invalid inside geometry"
    else
      let alpha_deg := degOf (atan2 R_eff L_in)
      let d := hypot R_eff L_in
      let sv := vStrips start width L_in t alpha_deg d
      let x_pivot_local := d - (length_out + E_trail)
      let dx := r - x_pivot_local
      let s_top := if 1e-12 < |dx| then translImg ⟨dx, 0, 0⟩ sv.1 else sv.1
      let s_bot := if 1e-12 < |dx| then translImg ⟨dx, 0, 0⟩ sv.2 else sv.2
      let rot_deg := -(90 - angle_deg)
      let pivot : Pt := ⟨r, 0, -start⟩
      let s_top := rotYimg pivot rot_deg s_top
      let s_bot := rotYimg pivot rot_deg s_bot
      let x_cut := r + length_out
      let bb := (bbOf s_top).hull (bbOf s_bot)
      let margin := max 10 (5 * max 1 (max r (max length_out (max width t))))
      let x_min := bb.xmin - margin
      let x_max := x_cut
      let y_min := bb.ymin - margin
      let y_max := bb.ymax + margin
      let z_min := min bb.zmin (-start - width) - margin
      let z_max := max bb.zmax (-start) + margin
      let trim := makeBox (x_max - x_min) (y_max - y_min) (z_max - z_min)
        ⟨x_min, y_min, z_min⟩
      .ok ([s_top ∩ trim, s_bot ∩ trim],
        .angled start width length_out L_total t r alpha_deg rot_deg x_cut
          E_lead E_trail theta_deg)

/-- The alpha recorded in a wedge summary. -/
def wSummaryAlpha : Except String (List Solid3 × WSummary) → Option ℝ
  | .ok (_, .w90 _ _ _ _ _ a _) => some a
  | .ok (_, .angled _ _ _ _ _ _ a _ _ _ _ _) => some a
  | .error _ => none

/-- The trailing extension of the C1 witness row
(start=100, w=50, L=220, t=5, angle=60, r=22). -/
noncomputable def wedgeC1Et : ℝ :=
  220 * (1 / Real.cos (radOf |90 - 60|) - 1) + 50 * Real.tan (radOf |90 - 60|)

/-- The total extended length of the C1 witness row. -/
noncomputable def wedgeC1LE : ℝ := 220 + 2 * 22 + wedgeC1Et

/-- The half angle of the C1 witness row. -/
noncomputable def wedgeC1alpha : ℝ := degOf (atan2 (22 - 5) wedgeC1LE)

/-- The tip distance of the C1 witness row. -/
noncomputable def wedgeC1d : ℝ := hypot (22 - 5) wedgeC1LE

/-- The pivot translation of the C1 witness row. -/
noncomputable def wedgeC1dx : ℝ := 22 - (wedgeC1d - (220 + wedgeC1Et))

theorem mem_makeBox {lx ly lz : ℝ} {b p : Pt} :
    p ∈ makeBox lx ly lz b ↔ (b.x ≤ p.x ∧ p.x ≤ b.x + lx) ∧
      (b.y ≤ p.y ∧ p.y ≤ b.y + ly) ∧ (b.z ≤ p.z ∧ p.z ≤ b.z + lz) := Iff.rfl

theorem atan2_pos_x {y x : ℝ} (hx : 0 < x) : atan2 y x = Real.arctan (y / x) := by
  simp [atan2, hx]

theorem radius_at_eq_radiusAtSpec (z : ℝ) :
    ∀ segs : List Seg, radius_at z segs = radiusAtSpec z segs := by
  intro segs
  induction segs with
  | nil => rfl
  | cons s rest ih =>
      by_cases h : s.z_bot - 1e-9 ≤ z ∧ z ≤ s.z_top + 1e-9
      · rw [radius_at, if_pos h]
        rw [radiusAtSpec,
          List.find?_cons_of_pos _ (by simp only [segCovers, decide_eq_true_eq]; exact h)]
      · rw [radius_at, if_neg h, ih]
        rw [radiusAtSpec, radiusAtSpec,
          List.find?_cons_of_neg _ (by simp only [segCovers, decide_eq_true_eq]; exact h)]

/-- C4: `radius_at` resolves the first segment whose tolerant range
`[z_bot - 1e-9, z_top + 1e-9]` contains `z`, returning the constant `r_top`
for a cylinder, the linear interpolation for a taper (degrading to `r_top`
when the span is below `1e-12`), and errors when no segment covers `z`; in
particular the taper `(r_bot=20, r_top=44, z_bot=-604, z_top=-20)` evaluated
at `z = -312` yields exactly `32`. -/
theorem radius_at_spec_correct (segs : List Seg) (z : ℝ) :
    radius_at z segs = radiusAtSpec z segs ∧
    (∀ s : Seg, segs.find? (segCovers z) = some s →
      radius_at z segs = .ok (segRadius s z)) ∧
    (segs.find? (segCovers z) = none →
      radius_at z segs = .error "No post segment covers Z") ∧
    radius_at (-312) [⟨SegKind.taper, -604, -20, 20, 44⟩] = .ok 32 := by
  refine ⟨radius_at_eq_radiusAtSpec z segs, ?_, ?_, ?_⟩
  · intro s hs
    rw [radius_at_eq_radiusAtSpec z segs, radiusAtSpec, hs]
  · intro hs
    rw [radius_at_eq_radiusAtSpec z segs, radiusAtSpec, hs]
  · rw [radius_at, if_pos (by norm_num)]
    have hspan : ¬ |(-20 : ℝ) - (-604)| < 1e-12 := by
      rw [show ((-20 : ℝ) - (-604)) = 584 by norm_num, abs_of_pos (by norm_num)]
      norm_num
    simp only [segRadius, hspan, if_false]
    norm_num

/-- Witness for C4: concrete evaluations exercising the covering-segment and
the no-covering-segment hypotheses. -/
theorem radius_at_spec_correct_witness :
    radius_at 0 [⟨SegKind.cyl, -10, 0, 3, 3⟩] = .ok 3 ∧
    radius_at 5 ([] : List Seg) = .error "No post segment covers Z" := by
  constructor
  · have h := (radius_at_spec_correct [⟨SegKind.cyl, -10, 0, 3, 3⟩] 0).2.1
      ⟨SegKind.cyl, -10, 0, 3, 3⟩
      (List.find?_cons_of_pos _ (by simp only [segCovers, decide_eq_true_eq]; norm_num))
    rw [h]; rfl
  · exact (radius_at_spec_correct [] 5).2.2.1 rfl

/-- C3: `compute_plate_angles` selects the effective radius `R`, `R + t/2`,
`R + t` for tangent edges inside/center/outside, returns
`half = atan2(R_eff, length)` and `v = 2*half`, with the degree value of the
V-angle exactly twice the degree value of the half-angle; it errors whenever
`length ≤ 0`, `radius ≤ 0` or `thickness < 0`. -/
theorem computePlateAngles_spec (radius length thickness : ℝ) :
    (0 < radius ∧ 0 < length ∧ 0 ≤ thickness →
      computePlateAngles radius length thickness "inside" =
        .ok (atan2 radius length, degOf (atan2 radius length),
          2 * atan2 radius length, 2 * degOf (atan2 radius length)) ∧
      computePlateAngles radius length thickness "center" =
        .ok (atan2 (radius + thickness * 0.5) length,
          degOf (atan2 (radius + thickness * 0.5) length),
          2 * atan2 (radius + thickness * 0.5) length,
          2 * degOf (atan2 (radius + thickness * 0.5) length)) ∧
      computePlateAngles radius length thickness "outside" =
        .ok (atan2 (radius + thickness) length,
          degOf (atan2 (radius + thickness) length),
          2 * atan2 (radius + thickness) length,
          2 * degOf (atan2 (radius + thickness) length)) ∧
      (∀ (tangent : String) (q : ℝ × ℝ × ℝ × ℝ),
        computePlateAngles radius length thickness tangent = .ok q →
        q.2.2.2 = 2 * q.2.1)) ∧
    ((length ≤ 0 ∨ radius ≤ 0 ∨ thickness < 0) →
      ∀ tangent : String,
        computePlateAngles radius length thickness tangent =
          .error "radius>0, length>0, thickness>=0 required") := by
  have hdeg : ∀ h : ℝ, degOf (2 * h) = 2 * degOf h := by
    intro h; unfold degOf; ring
  constructor
  · rintro ⟨hr, hl, ht⟩
    have hguard : ¬(length ≤ 0 ∨ radius ≤ 0 ∨ thickness < 0) := by
      push_neg; exact ⟨hl, hr, ht⟩
    refine ⟨?_, ?_, ?_, ?_⟩
    · rw [computePlateAngles, if_neg hguard]
      dsimp only
      rw [if_pos (show strNormalize "inside" = "inside" by decide), hdeg]
    · rw [computePlateAngles, if_neg hguard]
      dsimp only
      rw [if_neg (show ¬(strNormalize "center" = "inside") by decide),
        if_pos (show strNormalize "center" = "center" by decide), hdeg]
    · rw [computePlateAngles, if_neg hguard]
      dsimp only
      rw [if_neg (show ¬(strNormalize "outside" = "inside") by decide),
        if_neg (show ¬(strNormalize "outside" = "center") by decide),
        if_pos (show strNormalize "outside" = "outside" by decide), hdeg]
    · intro tangent q hq
      rw [computePlateAngles, if_neg hguard] at hq
      dsimp only at hq
      split at hq
      · cases hq; exact hdeg _
      · split at hq
        · cases hq; exact hdeg _
        · split at hq
          · cases hq; exact hdeg _
          · cases hq
  · intro hbad tangent
    rw [computePlateAngles, if_pos hbad]

/-- Witness for C3: the valid triple `(22, 220, 5)` and an invalid length. -/
theorem computePlateAngles_spec_witness :
    computePlateAngles 22 220 5 "inside" =
      .ok (atan2 22 220, degOf (atan2 22 220),
        2 * atan2 22 220, 2 * degOf (atan2 22 220)) ∧
    computePlateAngles 22 (-1) 5 "inside" =
      .error "radius>0, length>0, thickness>=0 required" :=
  ⟨((computePlateAngles_spec 22 220 5).1 (by norm_num)).1,
   (computePlateAngles_spec 22 (-1) 5).2 (by norm_num) "inside"⟩

theorem idxPass_cons {S : Type} (g : S → Option S) (shapes : List S) (j : ℕ)
    (rest : List ℕ) (init : List (Option S)) :
    idxPass g shapes (j :: rest) init =
      idxPass g shapes rest
        (match shapes[j]? with
         | some orig => init.set j (g orig)
         | none => init) := rfl

theorem idxPass_length {S : Type} (g : S → Option S) (shapes : List S)
    (idx : List ℕ) (init : List (Option S)) :
    (idxPass g shapes idx init).length = init.length := by
  induction idx generalizing init with
  | nil => rfl
  | cons j rest ih =>
      rw [idxPass_cons]
      cases hj : shapes[j]? with
      | none => exact ih init
      | some orig => exact (ih _).trans (by simp)

theorem idxPass_not_mem {S : Type} {g : S → Option S} {shapes : List S}
    {idx : List ℕ} {init : List (Option S)} {i : ℕ} (h : i ∉ idx) :
    (idxPass g shapes idx init)[i]? = init[i]? := by
  induction idx generalizing init with
  | nil => rfl
  | cons j rest ih =>
      have hij : i ≠ j := fun e => h (e ▸ List.mem_cons_self j rest)
      have hrest : i ∉ rest := fun e => h (List.mem_cons_of_mem j e)
      rw [idxPass_cons, ih hrest]
      cases hj : shapes[j]? with
      | none => rfl
      | some orig => exact List.getElem?_set_ne (fun e => hij e.symm)

theorem idxPass_mem {S : Type} {g : S → Option S} {shapes : List S}
    {idx : List ℕ} {init : List (Option S)} {i : ℕ} {s : S}
    (h : i ∈ idx) (hs : shapes[i]? = some s) (hlen : i < init.length) :
    (idxPass g shapes idx init)[i]? = some (g s) := by
  induction idx generalizing init with
  | nil => cases h
  | cons j rest ih =>
      by_cases hrest : i ∈ rest
      · rw [idxPass_cons]
        cases hj : shapes[j]? with
        | none => exact ih hrest hlen
        | some orig => exact ih hrest (by simpa using hlen)
      · have hij : i = j := by
          rcases List.mem_cons.mp h with h0 | h0
          · exact h0
          · exact (hrest h0).elim
        subst hij
        rw [idxPass_cons, hs]
        exact (idxPass_not_mem hrest).trans
          (List.getElem?_set_self (by simpa using hlen))

theorem idxPass_mem_getElem? {S : Type} {g : S → Option S} {shapes : List S}
    {idx : List ℕ} {i : ℕ} {s : S}
    (h : i ∈ idx) (hs : shapes[i]? = some s) :
    (idxPass g shapes idx (List.replicate shapes.length none))[i]? = some (g s) :=
  idxPass_mem h hs (by
    rw [List.length_replicate]
    exact List.getElem?_eq_some_iff.mp hs |>.1)

/-- C7: the heel-cutter workflow is total and degrades gracefully: it always
returns a list of the same length as its input; a failure building the basic
cutter, or a failure of the smart-cutter boolean, returns every input solid
unmodified; and in the smart-cut pass each listed non-post solid is replaced
by its guarded cut, which keeps the original solid whenever that individual
cut fails. -/
theorem applyHeelCutterWorkflow_policy {S : Type} (k : HKernel S) (segs : List Seg)
    (shapes : List S) (postIdx nonPostIdx : List ℕ) :
    (applyHeelCutterWorkflow k segs shapes postIdx nonPostIdx).length = shapes.length ∧
    (∀ e, addPostHalfBoxFromSegments k.mkBox segs "negX" 2 0 = .error e →
      applyHeelCutterWorkflow k segs shapes postIdx nonPostIdx = shapes.map some) ∧
    (∀ cutter postShapes nonPostShapes,
      addPostHalfBoxFromSegments k.mkBox segs "negX" 2 0 = .ok cutter →
      heelGetAll shapes postIdx = some postShapes →
      heelGetAll shapes nonPostIdx = some nonPostShapes →
      (postShapes.isEmpty || nonPostShapes.isEmpty) = false →
      k.cut cutter (k.compound postShapes) = .error () →
      applyHeelCutterWorkflow k segs shapes postIdx nonPostIdx = shapes.map some) ∧
    (∀ cutter postShapes nonPostShapes smart,
      addPostHalfBoxFromSegments k.mkBox segs "negX" 2 0 = .ok cutter →
      heelGetAll shapes postIdx = some postShapes →
      heelGetAll shapes nonPostIdx = some nonPostShapes →
      (postShapes.isEmpty || nonPostShapes.isEmpty) = false →
      k.cut cutter (k.compound postShapes) = .ok smart →
      ∀ i s, i ∈ nonPostIdx → i ∉ postIdx → shapes[i]? = some s →
        (applyHeelCutterWorkflow k segs shapes postIdx nonPostIdx)[i]? =
          some (some (cutOrKeep k smart s))) := by
  refine ⟨?_, ?_, ?_, ?_⟩
  · cases hc : addPostHalfBoxFromSegments k.mkBox segs "negX" 2 0 with
    | error e => simp [applyHeelCutterWorkflow, hc]
    | ok cutter =>
        cases hp : heelGetAll shapes postIdx with
        | none => simp [applyHeelCutterWorkflow, hc, hp]
        | some postShapes =>
            cases hn : heelGetAll shapes nonPostIdx with
            | none => simp [applyHeelCutterWorkflow, hc, hp, hn]
            | some nonPostShapes =>
                by_cases he : (postShapes.isEmpty || nonPostShapes.isEmpty) = true
                · simp [applyHeelCutterWorkflow, hc, hp, hn, he]
                · cases hcut : k.cut cutter (k.compound postShapes) with
                  | error u => simp [applyHeelCutterWorkflow, hc, hp, hn, he, hcut]
                  | ok smart =>
                      simp only [applyHeelCutterWorkflow, hc, hp, hn, he, hcut,
                        Bool.false_eq_true, if_false]
                      rw [idxPass_length, idxPass_length, List.length_replicate]
  · intro e hc
    simp [applyHeelCutterWorkflow, hc]
  · intro cutter postShapes nonPostShapes hc hp hn he hcut
    simp [applyHeelCutterWorkflow, hc, hp, hn, he, hcut]
  · intro cutter postShapes nonPostShapes smart hc hp hn he hcut i s hmem hnotpost hs
    simp only [applyHeelCutterWorkflow, hc, hp, hn, he, hcut, Bool.false_eq_true, if_false]
    rw [idxPass_not_mem hnotpost]
    exact idxPass_mem_getElem? hmem hs

/-- C8: every solid listed in `post_shape_indices` reappears in the returned
list at the same index, identically, on every control path of the workflow. -/
theorem applyHeelCutterWorkflow_post_identity {S : Type} (k : HKernel S)
    (segs : List Seg) (shapes : List S) (postIdx nonPostIdx : List ℕ)
    (i : ℕ) (s : S) (hi : i ∈ postIdx) (hs : shapes[i]? = some s) :
    (applyHeelCutterWorkflow k segs shapes postIdx nonPostIdx)[i]? = some (some s) := by
  have hmap : (shapes.map some)[i]? = some (some s) := by
    simp [List.getElem?_map, hs]
  cases hc : addPostHalfBoxFromSegments k.mkBox segs "negX" 2 0 with
  | error e => simpa [applyHeelCutterWorkflow, hc] using hmap
  | ok cutter =>
      cases hp : heelGetAll shapes postIdx with
      | none => simpa [applyHeelCutterWorkflow, hc, hp] using hmap
      | some postShapes =>
          cases hn : heelGetAll shapes nonPostIdx with
          | none => simpa [applyHeelCutterWorkflow, hc, hp, hn] using hmap
          | some nonPostShapes =>
              by_cases he : (postShapes.isEmpty || nonPostShapes.isEmpty) = true
              · simpa [applyHeelCutterWorkflow, hc, hp, hn, he] using hmap
              · cases hcut : k.cut cutter (k.compound postShapes) with
                | error u =>
                    simpa [applyHeelCutterWorkflow, hc, hp, hn, he, hcut] using hmap
                | ok smart =>
                    simp only [applyHeelCutterWorkflow, hc, hp, hn, he, hcut,
                      Bool.false_eq_true, if_false]
                    refine idxPass_mem hi hs ?_
                    rw [idxPass_length, List.length_replicate]
                    exact List.getElem?_eq_some_iff.mp hs |>.1

/-- Witness for C7: the empty-segment failure path returns the input solids,
and on a successful smart cut the listed non-post solid is cut. -/
theorem applyHeelCutterWorkflow_policy_witness :
    applyHeelCutterWorkflow natKernel [] [5] [] [] = [some 5] ∧
    (applyHeelCutterWorkflow natKernel [⟨SegKind.cyl, -10, 0, 1, 1⟩]
      [7, 8] [0] [1])[1]? = some (some (cutOrKeep natKernel 7 8)) := by
  constructor
  · exact (applyHeelCutterWorkflow_policy natKernel [] [5] [] []).2.1 _ rfl
  · refine (applyHeelCutterWorkflow_policy natKernel [⟨SegKind.cyl, -10, 0, 1, 1⟩]
      [7, 8] [0] [1]).2.2.2 0 [7] [8] 7 ?_ rfl rfl rfl ?_ 1 8 (by simp) (by simp) rfl
    · rw [addPostHalfBoxFromSegments]
      rw [addPostHalfBox]
      rw [if_neg (by norm_num), if_neg (by norm_num), if_pos rfl]
      rfl
    · rfl

/-- Witness for C8: a post solid at index 0 passes through identically. -/
theorem applyHeelCutterWorkflow_post_identity_witness :
    (applyHeelCutterWorkflow natKernel [⟨SegKind.cyl, -10, 0, 1, 1⟩]
      [7, 8] [0] [1])[0]? = some (some 7) :=
  applyHeelCutterWorkflow_post_identity natKernel [⟨SegKind.cyl, -10, 0, 1, 1⟩]
    [7, 8] [0] [1] 0 7 (by simp) rfl

theorem bounded3_makeBox (lx ly lz : ℝ) (b : Pt) : Bounded3 (makeBox lx ly lz b) := by
  refine ⟨(|b.x| + |lx|) + (|b.y| + |ly|) + (|b.z| + |lz|), ?_⟩
  rintro p ⟨⟨hx1, hx2⟩, ⟨hy1, hy2⟩, ⟨hz1, hz2⟩⟩
  have bx := abs_nonneg b.x
  have bxl := abs_nonneg lx
  have hbx := le_abs_self b.x
  have hbx' := neg_abs_le b.x
  have hlx := le_abs_self lx
  have hby := le_abs_self b.y
  have hby' := neg_abs_le b.y
  have hly := le_abs_self ly
  have hbz := le_abs_self b.z
  have hbz' := neg_abs_le b.z
  have hlz := le_abs_self lz
  have h1 : |p.x| ≤ |b.x| + |lx| := by
    rw [abs_le]; constructor <;> nlinarith [abs_nonneg ly, abs_nonneg lz]
  have h2 : |p.y| ≤ |b.y| + |ly| := by
    rw [abs_le]; constructor <;> nlinarith
  have h3 : |p.z| ≤ |b.z| + |lz| := by
    rw [abs_le]; constructor <;> nlinarith
  have n1 : (0:ℝ) ≤ |b.x| + |lx| := by positivity
  have n2 : (0:ℝ) ≤ |b.y| + |ly| := by positivity
  have n3 : (0:ℝ) ≤ |b.z| + |lz| := by positivity
  exact ⟨by linarith, by linarith, by linarith⟩

theorem bounded3_image {S : Solid3} (f : Pt → Pt) (K : ℝ)
    (hf : ∀ p : Pt, |(f p).x| ≤ K + (|p.x| + |p.y| + |p.z|) ∧
      |(f p).y| ≤ K + (|p.x| + |p.y| + |p.z|) ∧
      |(f p).z| ≤ K + (|p.x| + |p.y| + |p.z|))
    (hS : Bounded3 S) : Bounded3 (f '' S) := by
  obtain ⟨M, hM⟩ := hS
  refine ⟨K + 3 * M, ?_⟩
  rintro q ⟨p, hp, rfl⟩
  obtain ⟨h1, h2, h3⟩ := hM p hp
  obtain ⟨g1, g2, g3⟩ := hf p
  exact ⟨by linarith, by linarith, by linarith⟩

theorem bounded3_rotZimg {S : Solid3} (c : Pt) (a : ℝ) (h : Bounded3 S) :
    Bounded3 (rotZimg c a S) := by
  refine bounded3_image (rotZpt c a) (2 * (|c.x| + |c.y| + |c.z|)) ?_ h
  intro p
  have hc := Real.abs_cos_le_one (radOf a)
  have hs := Real.abs_sin_le_one (radOf a)
  have e1 : |(p.x - c.x) * Real.cos (radOf a)| ≤ |p.x| + |c.x| := by
    rw [abs_mul]
    calc |p.x - c.x| * |Real.cos (radOf a)| ≤ |p.x - c.x| * 1 := by
          exact mul_le_mul_of_nonneg_left hc (abs_nonneg _)
      _ = |p.x - c.x| := mul_one _
      _ ≤ |p.x| + |c.x| := abs_sub _ _
  have e2 : |(p.y - c.y) * Real.sin (radOf a)| ≤ |p.y| + |c.y| := by
    rw [abs_mul]
    calc |p.y - c.y| * |Real.sin (radOf a)| ≤ |p.y - c.y| * 1 := by
          exact mul_le_mul_of_nonneg_left hs (abs_nonneg _)
      _ = |p.y - c.y| := mul_one _
      _ ≤ |p.y| + |c.y| := abs_sub _ _
  have e3 : |(p.x - c.x) * Real.sin (radOf a)| ≤ |p.x| + |c.x| := by
    rw [abs_mul]
    calc |p.x - c.x| * |Real.sin (radOf a)| ≤ |p.x - c.x| * 1 := by
          exact mul_le_mul_of_nonneg_left hs (abs_nonneg _)
      _ = |p.x - c.x| := mul_one _
      _ ≤ |p.x| + |c.x| := abs_sub _ _
  have e4 : |(p.y - c.y) * Real.cos (radOf a)| ≤ |p.y| + |c.y| := by
    rw [abs_mul]
    calc |p.y - c.y| * |Real.cos (radOf a)| ≤ |p.y - c.y| * 1 := by
          exact mul_le_mul_of_nonneg_left hc (abs_nonneg _)
      _ = |p.y - c.y| := mul_one _
      _ ≤ |p.y| + |c.y| := abs_sub _ _
  refine ⟨?_, ?_, ?_⟩
  · calc |(rotZpt c a p).x| = |c.x + ((p.x - c.x) * Real.cos (radOf a) -
        (p.y - c.y) * Real.sin (radOf a))| := by rw [rotZpt]; ring_nf
    _ ≤ |c.x| + |(p.x - c.x) * Real.cos (radOf a) - (p.y - c.y) * Real.sin (radOf a)| :=
        abs_add _ _
    _ ≤ |c.x| + (|(p.x - c.x) * Real.cos (radOf a)| + |(p.y - c.y) * Real.sin (radOf a)|) := by
        have := abs_sub ((p.x - c.x) * Real.cos (radOf a)) ((p.y - c.y) * Real.sin (radOf a))
        linarith
    _ ≤ 2 * (|c.x| + |c.y| + |c.z|) + (|p.x| + |p.y| + |p.z|) := by
        have a1 := abs_nonneg c.y
        have a2 := abs_nonneg c.z
        have a3 := abs_nonneg p.z
        have a4 := abs_nonneg c.x
        linarith
  · calc |(rotZpt c a p).y| = |c.y + ((p.x - c.x) * Real.sin (radOf a) +
        (p.y - c.y) * Real.cos (radOf a))| := by rw [rotZpt]; ring_nf
    _ ≤ |c.y| + |(p.x - c.x) * Real.sin (radOf a) + (p.y - c.y) * Real.cos (radOf a)| :=
        abs_add _ _
    _ ≤ |c.y| + (|(p.x - c.x) * Real.sin (radOf a)| + |(p.y - c.y) * Real.cos (radOf a)|) := by
        have := abs_add ((p.x - c.x) * Real.sin (radOf a)) ((p.y - c.y) * Real.cos (radOf a))
        linarith
    _ ≤ 2 * (|c.x| + |c.y| + |c.z|) + (|p.x| + |p.y| + |p.z|) := by
        have a1 := abs_nonneg c.y
        have a2 := abs_nonneg c.z
        have a3 := abs_nonneg p.z
        have a4 := abs_nonneg c.x
        linarith
  · have : |(rotZpt c a p).z| = |p.z| := rfl
    rw [this]
    have a1 := abs_nonneg c.x
    have a2 := abs_nonneg c.y
    have a3 := abs_nonneg c.z
    have a4 := abs_nonneg p.x
    have a5 := abs_nonneg p.y
    linarith

theorem bounded3_rotYimg {S : Solid3} (c : Pt) (a : ℝ) (h : Bounded3 S) :
    Bounded3 (rotYimg c a S) := by
  refine bounded3_image (rotYpt c a) (2 * (|c.x| + |c.y| + |c.z|)) ?_ h
  intro p
  have hc := Real.abs_cos_le_one (radOf a)
  have hs := Real.abs_sin_le_one (radOf a)
  have e1 : |(p.x - c.x) * Real.cos (radOf a)| ≤ |p.x| + |c.x| := by
    rw [abs_mul]
    calc |p.x - c.x| * |Real.cos (radOf a)| ≤ |p.x - c.x| * 1 :=
          mul_le_mul_of_nonneg_left hc (abs_nonneg _)
      _ = |p.x - c.x| := mul_one _
      _ ≤ |p.x| + |c.x| := abs_sub _ _
  have e2 : |(p.z - c.z) * Real.sin (radOf a)| ≤ |p.z| + |c.z| := by
    rw [abs_mul]
    calc |p.z - c.z| * |Real.sin (radOf a)| ≤ |p.z - c.z| * 1 :=
          mul_le_mul_of_nonneg_left hs (abs_nonneg _)
      _ = |p.z - c.z| := mul_one _
      _ ≤ |p.z| + |c.z| := abs_sub _ _
  have e3 : |(p.x - c.x) * Real.sin (radOf a)| ≤ |p.x| + |c.x| := by
    rw [abs_mul]
    calc |p.x - c.x| * |Real.sin (radOf a)| ≤ |p.x - c.x| * 1 :=
          mul_le_mul_of_nonneg_left hs (abs_nonneg _)
      _ = |p.x - c.x| := mul_one _
      _ ≤ |p.x| + |c.x| := abs_sub _ _
  have e4 : |(p.z - c.z) * Real.cos (radOf a)| ≤ |p.z| + |c.z| := by
    rw [abs_mul]
    calc |p.z - c.z| * |Real.cos (radOf a)| ≤ |p.z - c.z| * 1 :=
          mul_le_mul_of_nonneg_left hc (abs_nonneg _)
      _ = |p.z - c.z| := mul_one _
      _ ≤ |p.z| + |c.z| := abs_sub _ _
  have a1 := abs_nonneg c.x
  have a2 := abs_nonneg c.y
  have a3 := abs_nonneg c.z
  have a4 := abs_nonneg p.x
  have a5 := abs_nonneg p.y
  have a6 := abs_nonneg p.z
  refine ⟨?_, ?_, ?_⟩
  · calc |(rotYpt c a p).x| = |c.x + ((p.x - c.x) * Real.cos (radOf a) +
        (p.z - c.z) * Real.sin (radOf a))| := by rw [rotYpt]; ring_nf
    _ ≤ |c.x| + |(p.x - c.x) * Real.cos (radOf a) + (p.z - c.z) * Real.sin (radOf a)| :=
        abs_add _ _
    _ ≤ |c.x| + (|(p.x - c.x) * Real.cos (radOf a)| + |(p.z - c.z) * Real.sin (radOf a)|) := by
        have := abs_add ((p.x - c.x) * Real.cos (radOf a)) ((p.z - c.z) * Real.sin (radOf a))
        linarith
    _ ≤ 2 * (|c.x| + |c.y| + |c.z|) + (|p.x| + |p.y| + |p.z|) := by linarith
  · have : |(rotYpt c a p).y| = |p.y| := rfl
    rw [this]; linarith
  · calc |(rotYpt c a p).z| = |c.z + ((p.z - c.z) * Real.cos (radOf a) -
        (p.x - c.x) * Real.sin (radOf a))| := by rw [rotYpt]; ring_nf
    _ ≤ |c.z| + |(p.z - c.z) * Real.cos (radOf a) - (p.x - c.x) * Real.sin (radOf a)| :=
        abs_add _ _
    _ ≤ |c.z| + (|(p.z - c.z) * Real.cos (radOf a)| + |(p.x - c.x) * Real.sin (radOf a)|) := by
        have := abs_sub ((p.z - c.z) * Real.cos (radOf a)) ((p.x - c.x) * Real.sin (radOf a))
        linarith
    _ ≤ 2 * (|c.x| + |c.y| + |c.z|) + (|p.x| + |p.y| + |p.z|) := by linarith

theorem bounded3_translImg {S : Solid3} (v : Pt) (h : Bounded3 S) :
    Bounded3 (translImg v S) := by
  refine bounded3_image (translPt v) (|v.x| + |v.y| + |v.z|) ?_ h
  intro p
  have a1 := abs_nonneg v.x
  have a2 := abs_nonneg v.y
  have a3 := abs_nonneg v.z
  have a4 := abs_nonneg p.x
  have a5 := abs_nonneg p.y
  have a6 := abs_nonneg p.z
  have e1 := abs_add p.x v.x
  have e2 := abs_add p.y v.y
  have e3 := abs_add p.z v.z
  exact ⟨by simpa [translPt] using by linarith, by simpa [translPt] using by linarith,
    by simpa [translPt] using by linarith⟩

theorem bbOf_sandwich {S : Solid3} (h : Bounded3 S) {p : Pt} (hp : p ∈ S) :
    ((bbOf S).xmin ≤ p.x ∧ p.x ≤ (bbOf S).xmax) ∧
    ((bbOf S).ymin ≤ p.y ∧ p.y ≤ (bbOf S).ymax) ∧
    ((bbOf S).zmin ≤ p.z ∧ p.z ≤ (bbOf S).zmax) := by
  obtain ⟨M, hM⟩ := h
  have hxb : BddBelow (Pt.x '' S) := by
    refine ⟨-M, ?_⟩
    rintro y ⟨q, hq, rfl⟩
    exact neg_le_of_abs_le (hM q hq).1
  have hxa : BddAbove (Pt.x '' S) := by
    refine ⟨M, ?_⟩
    rintro y ⟨q, hq, rfl⟩
    exact le_of_abs_le (hM q hq).1
  have hyb : BddBelow (Pt.y '' S) := by
    refine ⟨-M, ?_⟩
    rintro y ⟨q, hq, rfl⟩
    exact neg_le_of_abs_le (hM q hq).2.1
  have hya : BddAbove (Pt.y '' S) := by
    refine ⟨M, ?_⟩
    rintro y ⟨q, hq, rfl⟩
    exact le_of_abs_le (hM q hq).2.1
  have hzb : BddBelow (Pt.z '' S) := by
    refine ⟨-M, ?_⟩
    rintro y ⟨q, hq, rfl⟩
    exact neg_le_of_abs_le (hM q hq).2.2
  have hza : BddAbove (Pt.z '' S) := by
    refine ⟨M, ?_⟩
    rintro y ⟨q, hq, rfl⟩
    exact le_of_abs_le (hM q hq).2.2
  exact ⟨⟨csInf_le hxb ⟨p, hp, rfl⟩, le_csSup hxa ⟨p, hp, rfl⟩⟩,
    ⟨csInf_le hyb ⟨p, hp, rfl⟩, le_csSup hya ⟨p, hp, rfl⟩⟩,
    ⟨csInf_le hzb ⟨p, hp, rfl⟩, le_csSup hza ⟨p, hp, rfl⟩⟩⟩

/-- C10: in `wedge_angled.build_wedge` both branches raise before building
any solid whenever the effective radius `r - t` is not strictly positive;
in particular a failed radius lookup (defaulting `r` to 0) combined with a
positive plate thickness always rejects the row. -/
theorem wedgeAngled_build_rejects_nonpositive_Reff (row : TineRow)
    (rfn : ℝ → Except String ℝ) :
    (tineRadius rfn row.start - row.thickness ≤ 0 →
      wedgeAngled_build row rfn = .error "invalid inside geometry") ∧
    (∀ e, rfn (-row.start) = .error e → 0 < row.thickness →
      wedgeAngled_build row rfn = .error "invalid inside geometry") := by
  have main : tineRadius rfn row.start - row.thickness ≤ 0 →
      wedgeAngled_build row rfn = .error "invalid inside geometry" := by
    intro h
    rw [wedgeAngled_build]
    by_cases hang : |row.angle - 90| < 1e-9
    · rw [if_pos hang, if_pos (Or.inr h)]
    · rw [if_neg hang, if_pos (Or.inr h)]
  refine ⟨main, fun e he ht => main ?_⟩
  have h0 : tineRadius rfn row.start = 0 := by rw [tineRadius, he]
  rw [h0]
  linarith

/-- Witness for C10: a wedge row with thickness 5 and a failing radius
lookup is rejected with the invalid-geometry error. -/
theorem wedgeAngled_build_rejects_nonpositive_Reff_witness :
    wedgeAngled_build ⟨100, 50, 220, 5, 90⟩
      (fun _ => .error "No post segment covers Z") = .error "invalid inside geometry" :=
  (wedgeAngled_build_rejects_nonpositive_Reff ⟨100, 50, 220, 5, 90⟩
    (fun _ => .error "No post segment covers Z")).2 "No post segment covers Z"
    rfl (by norm_num)

/-- C6: evaluation of `build_plate` at a concrete 90-degree row (start=100,
width=50, length=220, thickness=5) with post radius 22: the produced box
runs from `x = 17` to `x = 17 + 220 = 237 = r + length - pen`, so the
visible length outside the post is `215`, not the CSV `220` promised by the
builder's own documentation and comments. -/
theorem buildPlate_pen90_shortens_visible_length :
    buildPlate ⟨100, 50, 220, 5, 90⟩ (fun _ => .ok 22) =
      .ok ([makeBox 220 5 50 ⟨17, -(5 / 2), -150⟩], .p90 100 50 220 5 22 5) ∧
    (17 : ℝ) + 220 = 22 + 220 - 5 ∧ ((22 : ℝ) + 220 - 5 ≠ 22 + 220) := by
  refine ⟨?_, by norm_num, by norm_num⟩
  rw [buildPlate]
  dsimp only
  rw [show tineRadius (fun _ => .ok 22) (100 : ℝ) = 22 from rfl]
  rw [if_pos (show |(90 : ℝ) - 90| < 1e-9 by norm_num)]
  rw [computePlateAngles]
  rw [if_neg (show ¬((220 : ℝ) ≤ 0 ∨ (22 : ℝ) ≤ 0 ∨ (5 : ℝ) < 0) by push_neg; norm_num)]
  dsimp only
  rw [if_pos (show strNormalize "inside" = "inside" by decide)]
  rw [if_pos (show (0 : ℝ) < PENETRATION_90 by rw [PENETRATION_90]; norm_num)]
  norm_num [PENETRATION_90]

/-- C5 counterexample: a plate row with angle 60 whose radius lookup fails
with the no-covering-segment error still produces one solid (built at the
fallback radius 0); the row is not skipped. -/
theorem buildPlate_radius_failure_still_builds :
    (fun _ : ℝ => (.error "No post segment covers Z" : Except String ℝ))
      (-(100 : ℝ)) = .error "No post segment covers Z" ∧
    numSolids (buildPlate ⟨100, 50, 220, 5, 60⟩
      (fun _ => .error "No post segment covers Z")) = 1 := by
  refine ⟨rfl, ?_⟩
  rw [buildPlate]
  dsimp only
  rw [if_neg (show ¬(|(60 : ℝ) - 90| < 1e-9) by
    rw [show |(60 : ℝ) - 90| = 30 by rw [abs_of_nonpos (by norm_num)]; norm_num]
    norm_num)]
  rfl

/-- C5 (amended): when the radius lookup fails the builders substitute
`r = 0` instead of skipping: a wedge row (any nonnegative thickness) and a
90-degree plate row then error out, producing no solid, but an angled plate
row still produces its one solid, built at radius 0. -/
theorem radius_failure_policy (row : TineRow) (rfn : ℝ → Except String ℝ)
    (e : String) (hf : rfn (-row.start) = .error e) :
    (0 ≤ row.thickness →
      wedgeAngled_build row rfn = .error "invalid inside geometry") ∧
    (|row.angle - 90| < 1e-9 →
      buildPlate row rfn = .error "radius>0, length>0, thickness>=0 required") ∧
    (¬(|row.angle - 90| < 1e-9) → numSolids (buildPlate row rfn) = 1) := by
  have h0 : tineRadius rfn row.start = 0 := by rw [tineRadius, hf]
  refine ⟨?_, ?_, ?_⟩
  · intro ht
    rw [wedgeAngled_build]
    by_cases hang : |row.angle - 90| < 1e-9
    · rw [if_pos hang, if_pos (Or.inr (by rw [h0]; linarith))]
    · rw [if_neg hang, if_pos (Or.inr (by rw [h0]; linarith))]
  · intro hang
    rw [buildPlate, if_pos hang, h0]
    rw [computePlateAngles, if_pos (Or.inr (Or.inl le_rfl))]
  · intro hang
    rw [buildPlate, if_neg hang]
    rfl

/-- Witness for C5's amended claim: concrete wedge and plate rows with a
failing radius lookup. -/
theorem radius_failure_policy_witness :
    wedgeAngled_build ⟨100, 50, 220, 5, 60⟩
      (fun _ => .error "No post segment covers Z") = .error "invalid inside geometry" ∧
    buildPlate ⟨100, 50, 220, 5, 90⟩
      (fun _ => .error "No post segment covers Z") =
        .error "radius>0, length>0, thickness>=0 required" ∧
    numSolids (buildPlate ⟨100, 50, 220, 5, 60⟩
      (fun _ => .error "No post segment covers Z")) = 1 := by
  have habs : ¬(|(60 : ℝ) - 90| < 1e-9) := by
    rw [show |(60 : ℝ) - 90| = 30 by rw [abs_of_nonpos (by norm_num)]; norm_num]
    norm_num
  exact ⟨(radius_failure_policy ⟨100, 50, 220, 5, 60⟩ _ _ rfl).1 (by norm_num),
    (radius_failure_policy ⟨100, 50, 220, 5, 90⟩ _ _ rfl).2.1 (by norm_num),
    (radius_failure_policy ⟨100, 50, 220, 5, 60⟩ _ _ rfl).2.2 habs⟩

theorem wedge90_eval (start width length t angle r : ℝ)
    (rfn : ℝ → Except String ℝ) (hr2 : tineRadius rfn start = r)
    (hang : |angle - 90| < 1e-9) (hL : 0 < length) (ht : t < r) :
    wedgeAngled_build ⟨start, width, length, t, angle⟩ rfn =
      .ok ([(vStrips start width length t (degOf (atan2 (r - t) length))
              (hypot (r - t) length)).1,
            (vStrips start width length t (degOf (atan2 (r - t) length))
              (hypot (r - t) length)).2],
        .w90 start width length t r (degOf (atan2 (r - t) length))
          (hypot (r - t) length)) := by
  rw [wedgeAngled_build]
  dsimp only
  rw [hr2]
  rw [if_pos hang, if_neg (by push_neg; exact ⟨hL, by linarith⟩)]

/-- C2 counterexample: for the 90-degree wedge row (start=100, width=50,
length=220, thickness=5) at post radius 22, the builder's recorded half
angle is `degrees(atan2(r - t, L)) = degrees(atan2(17, 220))`, while the
Plate-Angle Solver called with `tangent=inside, radius=r` would give
`degrees(atan2(22, 220))`; the two differ, so alpha is not obtained from
the solver at radius `r`. -/
theorem wedge90_alpha_differs_from_solver :
    wSummaryAlpha (wedgeAngled_build ⟨100, 50, 220, 5, 90⟩ (fun _ => .ok 22)) =
      some (degOf (atan2 (22 - 5) 220)) ∧
    computePlateAngles 22 220 5 "inside" =
      .ok (atan2 22 220, degOf (atan2 22 220), 2 * atan2 22 220,
        degOf (2 * atan2 22 220)) ∧
    degOf (atan2 (22 - 5) 220) ≠ degOf (atan2 22 220) := by
  refine ⟨?_, ?_, ?_⟩
  · rw [wedge90_eval 100 50 220 5 90 22 (fun _ => .ok 22) rfl (by norm_num)
      (by norm_num) (by norm_num)]
    rfl
  · rw [computePlateAngles, if_neg (by push_neg; norm_num)]
    dsimp only
    rw [if_pos (show strNormalize "inside" = "inside" by decide)]
  · intro hEq
    simp only [degOf] at hEq
    have hpi : (0 : ℝ) < Real.pi := Real.pi_pos
    have h1 : atan2 (22 - 5) 220 = atan2 22 220 := by
      field_simp at hEq
      linarith
    rw [atan2_pos_x (by norm_num : (0 : ℝ) < 220),
      atan2_pos_x (by norm_num : (0 : ℝ) < 220)] at h1
    have h2 := Real.arctan_injective h1
    norm_num at h2

/-- C2 (amended): the 90-degree branch of `wedge_angled.build_wedge`
computes the half angle inline as `atan2(R_eff, L)` with
`R_eff = r - thickness` (not via the Plate-Angle Solver at radius `r`),
the tip distance as `d = hypot(R_eff, L)`, and places each strip with its
tip edge at `x = d` before the Z rotations through the tip point. -/
theorem wedgeAngled_build_90_spec (start width length t angle r : ℝ)
    (rfn : ℝ → Except String ℝ) (hr : rfn (-start) = .ok r)
    (hang : |angle - 90| < 1e-9) (hL : 0 < length) (ht : t < r) :
    wedgeAngled_build ⟨start, width, length, t, angle⟩ rfn =
      .ok ([rotZimg ⟨hypot (r - t) length, 0, -start⟩
              (-(degOf (atan2 (r - t) length)))
              (makeBox length t width
                ⟨hypot (r - t) length - length, 0, -(start + width)⟩),
            rotZimg ⟨hypot (r - t) length, 0, -start⟩
              (degOf (atan2 (r - t) length))
              (makeBox length t width
                ⟨hypot (r - t) length - length, -t, -(start + width)⟩)],
        .w90 start width length t r (degOf (atan2 (r - t) length))
          (hypot (r - t) length)) ∧
    atan2 (r - t) length = Real.arctan ((r - t) / length) ∧
    hypot (r - t) length = Real.sqrt ((r - t) * (r - t) + length * length) :=
  ⟨wedge90_eval start width length t angle r rfn (by rw [tineRadius, hr]) hang hL ht,
   atan2_pos_x hL, rfl⟩

/-- Witness for C2's amended claim at the concrete row (100, 50, 220, 5, 90)
with post radius 22. -/
theorem wedgeAngled_build_90_spec_witness :
    wedgeAngled_build ⟨100, 50, 220, 5, 90⟩ (fun _ => .ok 22) =
      .ok ([rotZimg ⟨hypot (22 - 5) 220, 0, -100⟩
              (-(degOf (atan2 (22 - 5) 220)))
              (makeBox 220 5 50 ⟨hypot (22 - 5) 220 - 220, 0, -(100 + 50)⟩),
            rotZimg ⟨hypot (22 - 5) 220, 0, -100⟩
              (degOf (atan2 (22 - 5) 220))
              (makeBox 220 5 50 ⟨hypot (22 - 5) 220 - 220, -5, -(100 + 50)⟩)],
        .w90 100 50 220 5 22 (degOf (atan2 (22 - 5) 220)) (hypot (22 - 5) 220)) :=
  (wedgeAngled_build_90_spec 100 50 220 5 90 22 (fun _ => .ok 22) rfl
    (by norm_num) (by norm_num) (by norm_num)).1

theorem radOf_neg (a : ℝ) : radOf (-a) = -(radOf a) := by
  rw [radOf, radOf]; ring

theorem reflY_rotZ_comm (cx cz a : ℝ) (p : Pt) :
    reflYpt (rotZpt ⟨cx, 0, cz⟩ (-a) p) = rotZpt ⟨cx, 0, cz⟩ a (reflYpt p) := by
  have hc : Real.cos (radOf (-a)) = Real.cos (radOf a) := by
    rw [radOf_neg, Real.cos_neg]
  have hs : Real.sin (radOf (-a)) = -Real.sin (radOf a) := by
    rw [radOf_neg, Real.sin_neg]
  ext
  · show (rotZpt ⟨cx, 0, cz⟩ (-a) p).x = (rotZpt ⟨cx, 0, cz⟩ a (reflYpt p)).x
    rw [rotZpt, rotZpt]
    dsimp [reflYpt]
    rw [hc, hs]
    ring
  · show -(rotZpt ⟨cx, 0, cz⟩ (-a) p).y = (rotZpt ⟨cx, 0, cz⟩ a (reflYpt p)).y
    rw [rotZpt, rotZpt]
    dsimp [reflYpt]
    rw [hc, hs]
    ring
  · rfl

theorem reflY_makeBox (lx ly lz bx bz : ℝ) :
    reflYpt '' makeBox lx ly lz ⟨bx, 0, bz⟩ = makeBox lx ly lz ⟨bx, -ly, bz⟩ := by
  ext q
  constructor
  · rintro ⟨p, hp, rfl⟩
    obtain ⟨⟨h1, h2⟩, ⟨h3, h4⟩, h5, h6⟩ := mem_makeBox.mp hp
    dsimp only at h1 h2 h3 h4 h5 h6
    refine mem_makeBox.mpr ⟨⟨h1, h2⟩, ⟨?_, ?_⟩, h5, h6⟩
    · show -ly ≤ -p.y
      linarith
    · show -p.y ≤ -ly + ly
      linarith
  · intro hq
    obtain ⟨⟨h1, h2⟩, ⟨h3, h4⟩, h5, h6⟩ := mem_makeBox.mp hq
    dsimp only at h1 h2 h3 h4 h5 h6
    refine ⟨⟨q.x, -q.y, q.z⟩, mem_makeBox.mpr ⟨⟨h1, h2⟩, ⟨?_, ?_⟩, h5, h6⟩, ?_⟩
    · show (0 : ℝ) ≤ -q.y
      linarith
    · show -q.y ≤ 0 + ly
      linarith
    · ext
      · rfl
      · show -(-q.y) = q.y
        ring
      · rfl

theorem vStrips_mirror (start width L t a d : ℝ) :
    (vStrips start width L t a d).2 = reflYpt '' (vStrips start width L t a d).1 := by
  show rotZimg ⟨d, 0, -start⟩ a (makeBox L t width ⟨d - L, -t, -(start + width)⟩) =
    reflYpt '' rotZimg ⟨d, 0, -start⟩ (-a) (makeBox L t width ⟨d - L, 0, -(start + width)⟩)
  rw [rotZimg, rotZimg]
  rw [← Set.image_comp]
  rw [show reflYpt ∘ rotZpt ⟨d, 0, -start⟩ (-a) = rotZpt ⟨d, 0, -start⟩ a ∘ reflYpt from
    funext fun p => reflY_rotZ_comm d (-start) a p]
  rw [Set.image_comp]
  rw [reflY_makeBox]

/-- C9: in the (latest) 90-degree wedge builder, the two produced strips are
rotated by `-alpha` and `+alpha` about the Z axis through the common tip for
the same alpha, and the bottom strip is exactly the mirror image of the top
strip across the plane `y = 0`. -/
theorem wedgeAngled_build_90_mirror (start width length t angle r : ℝ)
    (rfn : ℝ → Except String ℝ) (hr : rfn (-start) = .ok r)
    (hang : |angle - 90| < 1e-9) (hL : 0 < length) (ht : t < r) :
    wedgeAngled_build ⟨start, width, length, t, angle⟩ rfn =
      .ok ([(vStrips start width length t (degOf (atan2 (r - t) length))
               (hypot (r - t) length)).1,
            (vStrips start width length t (degOf (atan2 (r - t) length))
               (hypot (r - t) length)).2],
        .w90 start width length t r (degOf (atan2 (r - t) length))
          (hypot (r - t) length)) ∧
    (vStrips start width length t (degOf (atan2 (r - t) length))
       (hypot (r - t) length)).1 =
      rotZimg ⟨hypot (r - t) length, 0, -start⟩ (-(degOf (atan2 (r - t) length)))
        (makeBox length t width ⟨hypot (r - t) length - length, 0, -(start + width)⟩) ∧
    (vStrips start width length t (degOf (atan2 (r - t) length))
       (hypot (r - t) length)).2 =
      rotZimg ⟨hypot (r - t) length, 0, -start⟩ (degOf (atan2 (r - t) length))
        (makeBox length t width ⟨hypot (r - t) length - length, -t, -(start + width)⟩) ∧
    (vStrips start width length t (degOf (atan2 (r - t) length))
       (hypot (r - t) length)).2 =
      reflYpt '' (vStrips start width length t (degOf (atan2 (r - t) length))
        (hypot (r - t) length)).1 :=
  ⟨wedge90_eval start width length t angle r rfn (by rw [tineRadius, hr]) hang hL ht,
   rfl, rfl, vStrips_mirror start width length t _ _⟩

/-- Witness for C9 at the concrete 90-degree row (100, 50, 220, 5) with post
radius 22: the builder output together with the mirror identity. -/
theorem wedgeAngled_build_90_mirror_witness :
    wedgeAngled_build ⟨100, 50, 220, 5, 90⟩ (fun _ => .ok 22) =
      .ok ([(vStrips 100 50 220 5 (degOf (atan2 (22 - 5) 220))
               (hypot (22 - 5) 220)).1,
            (vStrips 100 50 220 5 (degOf (atan2 (22 - 5) 220))
               (hypot (22 - 5) 220)).2],
        .w90 100 50 220 5 22 (degOf (atan2 (22 - 5) 220)) (hypot (22 - 5) 220)) ∧
    (vStrips 100 50 220 5 (degOf (atan2 (22 - 5) 220)) (hypot (22 - 5) 220)).2 =
      reflYpt '' (vStrips 100 50 220 5 (degOf (atan2 (22 - 5) 220))
        (hypot (22 - 5) 220)).1 :=
  ⟨(wedgeAngled_build_90_mirror 100 50 220 5 90 22 (fun _ => .ok 22) rfl
      (by norm_num) (by norm_num) (by norm_num)).1,
   (wedgeAngled_build_90_mirror 100 50 220 5 90 22 (fun _ => .ok 22) rfl
      (by norm_num) (by norm_num) (by norm_num)).2.2.2⟩

theorem inter_trimBox_eq (S : Solid3) (x_min x_cut y_min y_max z_min z_max : ℝ)
    (hb : ∀ p ∈ S, x_min ≤ p.x ∧ (y_min ≤ p.y ∧ p.y ≤ y_max) ∧
      (z_min ≤ p.z ∧ p.z ≤ z_max)) :
    S ∩ makeBox (x_cut - x_min) (y_max - y_min) (z_max - z_min)
        ⟨x_min, y_min, z_min⟩ =
      {p ∈ S | p.x ≤ x_cut} := by
  ext p
  constructor
  · rintro ⟨hS, hbox⟩
    obtain ⟨⟨b1, b2⟩, _, _⟩ := mem_makeBox.mp hbox
    dsimp only at b1 b2
    exact ⟨hS, by linarith⟩
  · rintro ⟨hS, hx⟩
    obtain ⟨c1, ⟨c2, c3⟩, c4, c5⟩ := hb p hS
    refine ⟨hS, mem_makeBox.mpr ⟨⟨?_, ?_⟩, ⟨?_, ?_⟩, ⟨?_, ?_⟩⟩⟩ <;> dsimp only <;> linarith

theorem hull_margin_bounds {Stop Sbot : Solid3} (hT : Bounded3 Stop)
    (hB : Bounded3 Sbot) (margin zc zc' : ℝ) (hm : 0 ≤ margin) :
    (∀ p ∈ Stop, ((bbOf Stop).hull (bbOf Sbot)).xmin - margin ≤ p.x ∧
      (((bbOf Stop).hull (bbOf Sbot)).ymin - margin ≤ p.y ∧
        p.y ≤ ((bbOf Stop).hull (bbOf Sbot)).ymax + margin) ∧
      (min ((bbOf Stop).hull (bbOf Sbot)).zmin zc - margin ≤ p.z ∧
        p.z ≤ max ((bbOf Stop).hull (bbOf Sbot)).zmax zc' + margin)) ∧
    (∀ p ∈ Sbot, ((bbOf Stop).hull (bbOf Sbot)).xmin - margin ≤ p.x ∧
      (((bbOf Stop).hull (bbOf Sbot)).ymin - margin ≤ p.y ∧
        p.y ≤ ((bbOf Stop).hull (bbOf Sbot)).ymax + margin) ∧
      (min ((bbOf Stop).hull (bbOf Sbot)).zmin zc - margin ≤ p.z ∧
        p.z ≤ max ((bbOf Stop).hull (bbOf Sbot)).zmax zc' + margin)) := by
  constructor
  · intro p hp
    obtain ⟨⟨x1, x2⟩, ⟨y1, y2⟩, z1, z2⟩ := bbOf_sandwich hT hp
    have mx := min_le_left (bbOf Stop).xmin (bbOf Sbot).xmin
    have my := min_le_left (bbOf Stop).ymin (bbOf Sbot).ymin
    have mz := min_le_left (bbOf Stop).zmin (bbOf Sbot).zmin
    have Mx := le_max_left (bbOf Stop).xmax (bbOf Sbot).xmax
    have My := le_max_left (bbOf Stop).ymax (bbOf Sbot).ymax
    have Mz := le_max_left (bbOf Stop).zmax (bbOf Sbot).zmax
    have hzc := min_le_left (min (bbOf Stop).zmin (bbOf Sbot).zmin) zc
    have hzc' := le_max_left (max (bbOf Stop).zmax (bbOf Sbot).zmax) zc'
    refine ⟨?_, ⟨?_, ?_⟩, ?_, ?_⟩ <;> dsimp only [BB.hull] <;> linarith
  · intro p hp
    obtain ⟨⟨x1, x2⟩, ⟨y1, y2⟩, z1, z2⟩ := bbOf_sandwich hB hp
    have mx := min_le_right (bbOf Stop).xmin (bbOf Sbot).xmin
    have my := min_le_right (bbOf Stop).ymin (bbOf Sbot).ymin
    have mz := min_le_right (bbOf Stop).zmin (bbOf Sbot).zmin
    have Mx := le_max_right (bbOf Stop).xmax (bbOf Sbot).xmax
    have My := le_max_right (bbOf Stop).ymax (bbOf Sbot).ymax
    have Mz := le_max_right (bbOf Stop).zmax (bbOf Sbot).zmax
    have hzc := min_le_left (min (bbOf Stop).zmin (bbOf Sbot).zmin) zc
    have hzc' := le_max_left (max (bbOf Stop).zmax (bbOf Sbot).zmax) zc'
    refine ⟨?_, ⟨?_, ?_⟩, ?_, ?_⟩ <;> dsimp only [BB.hull] <;> linarith

/-- C1: for an angled wedge row (angle away from 90, positive start, width,
length, thickness, with t < r), `build_wedge` computes theta = |90 - angle|,
extends the plate by E_lead = 2r and
E_trail = length*(sec theta - 1) + width*tan theta, builds the symmetric V at
total length `length + E_lead + E_trail`, translates it by `dx` so the pivot
at local `x = d - (length + E_trail)` lands on the post surface `x = r`
(last conjunct), rotates both strips about the Y axis through
`(r, 0, -start)` by `-(90 - angle)` degrees, and trims so that exactly the
side `x <= r + length` of each rotated strip is retained: the tip cut plane
sits at `x = r + length`. -/
theorem wedgeAngled_build_angled_spec
    (start width length t angle r E_trail L_total alpha d dx : ℝ)
    (rfn : ℝ → Except String ℝ)
    (hr : rfn (-start) = .ok r)
    (hstart : 0 < start) (hw : 0 < width) (hL : 0 < length) (ht : 0 < t)
    (hRe : t < r) (hr12 : 1e-12 < r)
    (hang : 1e-9 ≤ |90 - angle|) (hth : |90 - angle| < 90)
    (hE : E_trail = length * (1 / Real.cos (radOf |90 - angle|) - 1) +
      width * Real.tan (radOf |90 - angle|))
    (hLt : L_total = length + 2 * r + E_trail)
    (ha : alpha = degOf (atan2 (r - t) L_total))
    (hd : d = hypot (r - t) L_total)
    (hdx : dx = r - (d - (length + E_trail))) :
    wedgeAngled_build ⟨start, width, length, t, angle⟩ rfn =
      .ok ([{p ∈ rotYimg ⟨r, 0, -start⟩ (-(90 - angle))
              (translImg ⟨dx, 0, 0⟩ (vStrips start width L_total t alpha d).1) |
             p.x ≤ r + length},
            {p ∈ rotYimg ⟨r, 0, -start⟩ (-(90 - angle))
              (translImg ⟨dx, 0, 0⟩ (vStrips start width L_total t alpha d).2) |
             p.x ≤ r + length}],
        .angled start width length L_total t r alpha (-(90 - angle)) (r + length)
          (2 * r) E_trail |90 - angle|) ∧
    d - (length + E_trail) + dx = r := by
  subst hE hLt ha hd hdx
  refine ⟨?_, by ring⟩
  have hne : ¬(|angle - 90| < 1e-9) := by
    rw [abs_sub_comm]
    exact not_lt.mpr hang
  rw [wedgeAngled_build]
  dsimp only
  rw [show tineRadius rfn start = r from by rw [tineRadius, hr]]
  rw [if_neg hne]
  set Et := length * (1 / Real.cos (radOf |90 - angle|) - 1) +
    width * Real.tan (radOf |90 - angle|) with hEtdef
  set LE := length + 2 * r + Et with hLEdef
  set dd := hypot (r - t) LE with hdddef
  set dxx := r - (dd - (length + Et)) with hdxxdef
  have habs0 : (0 : ℝ) < |90 - angle| := lt_of_lt_of_le (by norm_num) hang
  have hθ0 : 0 < radOf |90 - angle| := by
    rw [radOf]
    apply div_pos (mul_pos habs0 Real.pi_pos)
    norm_num
  have hθ2 : radOf |90 - angle| < Real.pi / 2 := by
    rw [radOf, div_lt_div_iff₀ (by norm_num : (0:ℝ) < 180) (by norm_num : (0:ℝ) < 2)]
    nlinarith [Real.pi_pos]
  have hcos : 0 < Real.cos (radOf |90 - angle|) :=
    Real.cos_pos_of_mem_Ioo ⟨by linarith [Real.pi_pos], hθ2⟩
  have hcos1 : Real.cos (radOf |90 - angle|) ≤ 1 := Real.cos_le_one _
  have hsec : 1 ≤ 1 / Real.cos (radOf |90 - angle|) := by
    rw [le_div_iff₀ hcos]; linarith
  have htan : 0 ≤ Real.tan (radOf |90 - angle|) :=
    Real.tan_nonneg_of_nonneg_of_le_pi_div_two hθ0.le hθ2.le
  have hEt0 : 0 ≤ Et := by
    rw [hEtdef]
    exact add_nonneg (mul_nonneg hL.le (by linarith)) (mul_nonneg hw.le htan)
  have hLE0 : 0 < LE := by rw [hLEdef]; linarith
  have hLEeq : LE = length + 2 * r + Et := hLEdef
  have hdd : LE ≤ dd := by
    have h1 : LE * LE ≤ (r - t) * (r - t) + LE * LE := by
      nlinarith [mul_self_nonneg (r - t)]
    have h2 := Real.sqrt_le_sqrt h1
    rw [Real.sqrt_mul_self hLE0.le] at h2
    rw [hdddef, hypot]
    exact h2
  have hdxneg : dxx ≤ -r := by
    have := hdxxdef
    linarith
  have habsdx : 1e-12 < |dxx| := by
    have h1 : (1e-12 : ℝ) < -dxx := by linarith
    exact lt_of_lt_of_le h1 (neg_le_abs dxx)
  rw [if_neg (by push_neg; exact ⟨hLE0, by linarith⟩)]
  rw [if_pos habsdx, if_pos habsdx]
  have bT : Bounded3 (rotYimg ⟨r, 0, -start⟩ (-(90 - angle))
      (translImg ⟨dxx, 0, 0⟩
        (vStrips start width LE t (degOf (atan2 (r - t) LE)) dd).1)) :=
    bounded3_rotYimg _ _ (bounded3_translImg _
      (bounded3_rotZimg _ _ (bounded3_makeBox _ _ _ _)))
  have bB : Bounded3 (rotYimg ⟨r, 0, -start⟩ (-(90 - angle))
      (translImg ⟨dxx, 0, 0⟩
        (vStrips start width LE t (degOf (atan2 (r - t) LE)) dd).2)) :=
    bounded3_rotYimg _ _ (bounded3_translImg _
      (bounded3_rotZimg _ _ (bounded3_makeBox _ _ _ _)))
  have hm : (0 : ℝ) ≤ max 10 (5 * max 1 (max r (max length (max width t)))) :=
    le_trans (by norm_num) (le_max_left _ _)
  have hbounds := hull_margin_bounds bT bB
    (max 10 (5 * max 1 (max r (max length (max width t)))))
    (-start - width) (-start) hm
  refine congrArg Except.ok (congrArg₂ Prod.mk ?_ rfl)
  refine congrArg₂ List.cons ?_ (congrArg₂ List.cons ?_ rfl)
  · exact inter_trimBox_eq _ _ _ _ _ _ _ hbounds.1
  · exact inter_trimBox_eq _ _ _ _ _ _ _ hbounds.2

/-- Witness for C1 at the concrete row (100, 50, 220, 5, 60) with post
radius 22. -/
theorem wedgeAngled_build_angled_spec_witness :
    wedgeAngled_build ⟨100, 50, 220, 5, 60⟩ (fun _ => .ok 22) =
      .ok ([{p ∈ rotYimg ⟨22, 0, -100⟩ (-(90 - 60))
              (translImg ⟨wedgeC1dx, 0, 0⟩
                (vStrips 100 50 wedgeC1LE 5 wedgeC1alpha wedgeC1d).1) |
             p.x ≤ 22 + 220},
            {p ∈ rotYimg ⟨22, 0, -100⟩ (-(90 - 60))
              (translImg ⟨wedgeC1dx, 0, 0⟩
                (vStrips 100 50 wedgeC1LE 5 wedgeC1alpha wedgeC1d).2) |
             p.x ≤ 22 + 220}],
        .angled 100 50 220 wedgeC1LE 5 22 wedgeC1alpha (-(90 - 60)) (22 + 220)
          (2 * 22) wedgeC1Et |90 - 60|) ∧
    wedgeC1d - (220 + wedgeC1Et) + wedgeC1dx = 22 := by
  have h30 : |(90 : ℝ) - 60| = 30 := by
    rw [show (90 : ℝ) - 60 = 30 by norm_num]
    exact abs_of_pos (by norm_num)
  exact wedgeAngled_build_angled_spec 100 50 220 5 60 22 wedgeC1Et wedgeC1LE
    wedgeC1alpha wedgeC1d wedgeC1dx (fun _ => .ok 22) rfl (by norm_num)
    (by norm_num) (by norm_num) (by norm_num) (by norm_num) (by norm_num)
    (by rw [h30]; norm_num) (by rw [h30]; norm_num) rfl rfl rfl rfl rfl
